import Mathlib

/-!
Verification of `Psamcyite/ethutil` (Go), file `src/cmd/common.go`.

The Go code is shallowly embedded: Go `int64` arithmetic is modelled with
`Int` using `Int.tdiv` for `/` (Go division truncates toward zero);
`math/big` `Int.Div` is Euclidean division, modelled with `Int.ediv`;
`math/big` `Int.Quo` (used by shopspring/decimal's rescale) truncates
toward zero, modelled with `Int.tdiv`.  Byte slices are `List Nat` whose
elements are byte values.  `big.Int.Int64()` is the identity on values
that fit in an `int64`; the claims below only exercise such values, so
`v` is carried as a plain `Int`.
-/

/-- Embedding of `getRecoveryId` (common.go:497-511).
Go source: if v == 0 or 1 then v; else if v == 27 or 28 then v-27;
else chainId := (v-35)/2 (Go `/` truncates toward zero) and
recoveryId := v - 35 - 2*chainId. -/
def getRecoveryId (v : Int) : Int :=
  if v = 0 ∨ v = 1 then v
  else if v = 27 ∨ v = 28 then v - 27
  else
    let chainId := Int.tdiv (v - 35) 2
    v - 35 - 2 * chainId

/-- Minimal big-endian byte encoding of a natural number, as Go's
`big.Int.Bytes()` produces it (empty slice for zero). -/
def natToBEBytes (n : Nat) : List Nat :=
  if h : n = 0 then []
  else natToBEBytes (n / 256) ++ [n % 256]
decreasing_by exact Nat.div_lt_self (Nat.pos_of_ne_zero h) (by decide)

/-- Left-zero-pad a byte string to 32 bytes, as the
`copy(rBytes[32-len(r.Bytes()):], r.Bytes())` idiom does. -/
def padTo32 (bs : List Nat) : List Nat :=
  List.replicate (32 - bs.length) 0 ++ bs

/-- Embedding of `buildECDSASignature` (common.go:514-525).
When `r` or `s` needs more than 32 bytes, `32 - len(r.Bytes())` is a
negative slice index and the Go code aborts with a slice-bounds
violation; that abort is modelled as `none`.  Otherwise the result is
pad32(r) ++ pad32(s) ++ [byte(recoveryId)], where Go's `byte(int)`
conversion keeps the low 8 bits. -/
def buildECDSASignature (v : Int) (r s : Nat) : Option (List Nat) :=
  let rB := natToBEBytes r
  let sB := natToBEBytes s
  if rB.length ≤ 32 ∧ sB.length ≤ 32 then
    some (padTo32 rB ++ padTo32 sB ++ [(getRecoveryId v % 256).toNat])
  else
    none

/-- Embedding of `RecoverPubkey` (common.go:528-536): builds the compact
signature and hands it to the elliptic-curve recovery primitive, which is
external to this repository and is abstracted as a function argument. -/
def RecoverPubkey (ecrecover : List Nat → List Nat → Option (List Nat))
    (v : Int) (r s : Nat) (msg : List Nat) : Option (List Nat) :=
  (buildECDSASignature v r s).bind (fun sig => ecrecover msg sig)

/-- Result of the `eth_feeHistory` RPC as the code consumes it
(common.go:343): `reward` holds one row per block of the 4-block window,
oldest block first (see the curl transcript quoted in the source),
each row holding the 5th/50th/95th-percentile rewards. -/
structure FeeHistoryResult where
  reward : List (List Int)
deriving DecidableEq

/-- `feeHistory.Reward[i][j]` (out-of-range reads do not occur on the
4-row × 3-column histories the claims quantify over). -/
def rewardAt (fh : FeeHistoryResult) (i j : Nat) : Int :=
  (fh.reward.getD i []).getD j 0

/-- The `slow`/`average`/`fast` computation of common.go:345-358 at
percentile column `j`: sum of `Reward[0][j] + Reward[1][j] + Reward[2][j]`
divided by 3 with `big.Int.Div` (Euclidean division). -/
def feeHistoryAvgAt (fh : FeeHistoryResult) (j : Nat) : Int :=
  Int.ediv (rewardAt fh 0 j + rewardAt fh 1 j + rewardAt fh 2 j) 3

/-- The estimate branch of common.go:343-367: `slow` (j=0) and `fast`
(j=2) are computed but unused; the function returns
(maxPriorityFeePerGasEstimate, maxFeePerGasEstimate) =
(average, latestBaseFee + average). -/
def estimateFeesEip1559 (fh : FeeHistoryResult) (latestBaseFee : Int) : Int × Int :=
  let average := feeHistoryAvgAt fh 1
  (average, latestBaseFee + average)

/-- shopspring/decimal `Decimal`: the represented number is
`value * 10 ^ exp`. -/
structure GoDecimal where
  value : Int
  exp : Int
deriving DecidableEq

/-- shopspring/decimal `Mul`: multiply mantissas, add exponents. -/
def decMul (a b : GoDecimal) : GoDecimal :=
  ⟨a.value * b.value, a.exp + b.exp⟩

/-- shopspring/decimal `BigInt()`: rescale to exponent 0; a negative
exponent divides the mantissa by a power of ten with `big.Int.Quo`
(truncation toward zero). -/
def decBigInt (d : GoDecimal) : Int :=
  if 0 ≤ d.exp then d.value * 10 ^ d.exp.toNat
  else Int.tdiv d.value (10 ^ (-d.exp).toNat)

/-- `decimal.RequireFromString("1000000000")`: mantissa 10^9, exponent 0. -/
def oneGwei : GoDecimal := ⟨1000000000, 0⟩

/-- The override path of common.go:376-378/387-389: parse the gwei
string to a decimal `d`, multiply by `oneGwei`, take `BigInt()`. -/
def gweiToWei (d : GoDecimal) : Int :=
  decBigInt (decMul d oneGwei)

/-- The exact rational value a `GoDecimal` denotes. -/
def decToRat (d : GoDecimal) : ℚ :=
  (d.value : ℚ) * (10 : ℚ) ^ d.exp

/-- The EIP-1559 fee selection of common.go:293-390.  An override string
`""` is modelled as `none`, a parsed override decimal as `some d`.  The
estimate pair is computed from the fee history only when at least one
override is missing (the Go guard `prio == "" || max == ""`); otherwise
the two freshly allocated `big.Int`s stay zero and are never read. -/
def computeFeesEip1559 (prioOverride maxOverride : Option GoDecimal)
    (fh : FeeHistoryResult) (latestBaseFee : Int) : Int × Int :=
  let est : Int × Int :=
    if prioOverride.isNone ∨ maxOverride.isNone then
      estimateFeesEip1559 fh latestBaseFee
    else (0, 0)
  (match prioOverride with
   | none => est.1
   | some d => gweiToWei d,
   match maxOverride with
   | none => est.2
   | some d => gweiToWei d)

/-- The 50th-percentile average exactly as the claim words it: over the
three MOST RECENT blocks of the 4-block window, i.e. rows 1, 2, 3 of the
oldest-first reward array. -/
def specMidAvgMostRecent3 (fh : FeeHistoryResult) : Int :=
  Int.ediv (rewardAt fh 1 1 + rewardAt fh 2 1 + rewardAt fh 3 1) 3

/-- The 50th-percentile average as the amended claim words it: over the
three OLDEST blocks of the window, i.e. the first three rows of the
oldest-first reward array. -/
def specMidAvgOldest3 (fh : FeeHistoryResult) : Int :=
  Int.ediv ((fh.reward.take 3).map (fun row => row.getD 1 0)).sum 3

/-- Modelled from the spec: the constant `gasUsedByTransferEth` referred
to at common.go:267 is declared outside the provided sources; the spec
calls it "a small fixed constant tuned for a bare value transfer", which
is the intrinsic transfer cost 21000.  The claims never depend on its
numeric value, only on it being this constant. -/
def gasUsedByTransferEth : Nat := 21000

/-- Embedding of `isContractAddress` (common.go:69-77) applied to the
bytecode the node returns for the address at the latest block:
`len(bytecode) > 0`. -/
def isContractAddress (bytecode : List Nat) : Bool :=
  0 < bytecode.length

/-- The gas-limit selection of common.go:265-283.  `overrideGasLimit` is
`globalOptGasLimit` (0 = unspecified); `destCode` is `none` when
`toAddress == nil` and `some bytecode` (the destination's on-chain code
at the latest block) otherwise; `data` is the payload. -/
def estimateGasLimit (overrideGasLimit : Nat) (destCode : Option (List Nat))
    (data : List Nat) : Nat :=
  if overrideGasLimit ≠ 0 then overrideGasLimit
  else
    match destCode with
    | none => 7000000
    | some bytecode =>
      let afterContractCheck :=
        if isContractAddress bytecode then 900000 else gasUsedByTransferEth
      if 0 < data.length then 900000 else afterContractCheck

/-- A mined receipt; only the status field matters to the claims. -/
structure Receipt where
  status : Nat
deriving DecidableEq

/-- `types.ReceiptStatusSuccessful` of go-ethereum. -/
def receiptStatusSuccessful : Nat := 1

/-- Outcome of one `client.TransactionReceipt` call: a receipt, the
sentinel `ethereum.NotFound`, or any other error. -/
inductive LookupResult where
  | found (rp : Receipt)
  | notFound
  | fatal (e : String)
deriving DecidableEq

/-- Result of the polling loop.  `sleeps` counts the 5-second waits that
happened before the loop ended; `stillPolling` means the supplied fuel
ran out with the Go loop still running (the Go code has no such bound). -/
inductive PollResult where
  | gotReceipt (rp : Receipt) (sleeps : Nat)
  | timeoutError (sleeps : Nat)
  | fatalError (e : String)
  | stillPolling
deriving DecidableEq

/-- The `recheck:` loop of `getTxReceipt` (common.go:164-184).
`lookup k` is what the k-th `TransactionReceipt` call returns and
`elapsed k` is `time.Now() - beginTime` at the k-th timeout check, in
the same time unit as `timeout`.  The Go guard
`timeout > 0 && beginTime.Add(timeout).After(time.Now())` is literally
`0 < timeout ∧ elapsed k < timeout`; when it fires the code returns the
"GetReceipt timeout" error, otherwise it sleeps 5 seconds and jumps back
to `recheck`. -/
def getTxReceiptLoop (lookup : Nat → LookupResult) (elapsed : Nat → Nat)
    (timeout : Nat) : Nat → Nat → PollResult
  | 0, _ => .stillPolling
  | fuel + 1, k =>
    match lookup k with
    | .found rp => .gotReceipt rp k
    | .fatal e => .fatalError e
    | .notFound =>
      if 0 < timeout ∧ elapsed k < timeout then .timeoutError k
      else getTxReceiptLoop lookup elapsed timeout fuel (k + 1)

/-- Embedding of `getTxReceipt` (common.go:161-185): run the `recheck:`
loop from its first iteration. -/
def getTxReceipt (lookup : Nat → LookupResult) (elapsed : Nat → Nat)
    (timeout fuel : Nat) : PollResult :=
  getTxReceiptLoop lookup elapsed timeout fuel 0

/-- Externally visible RPC activity of the tail of `Transact`. -/
inductive RpcEvent where
  | sendRawTx
  | warnHashMismatch
  | queryReceipt (h : Nat)
deriving DecidableEq

/-- Environment of the post-signing part of `Transact`: the global
flags, the locally computed hash of the signed transaction, what
`SendRawTransaction` would return, and what `getTxReceipt` would return
for a given hash.  Hashes are abstracted as naturals. -/
structure TransactEnv where
  dryRun : Bool
  transferNotCheck : Bool
  localTxHash : Nat
  sendResult : Except String Nat
  receiptResult : Nat → Except String Receipt

/-- Embedding of `Transact` after signing (common.go:444-486), paired
with the trace of RPC activity it performs.  In dry-run mode the
function returns the local hash at once; otherwise it broadcasts, warns
(without failing) when the node-echoed hash differs from the local one,
and — unless `transferNotCheck` — polls the receipt for the NODE hash
and checks its status. -/
def transactTail (env : TransactEnv) : List RpcEvent × Except String Nat :=
  if env.dryRun then ([], .ok env.localTxHash)
  else
    match env.sendResult with
    | .error e => ([.sendRawTx], .error ("SendRawTransaction fail: " ++ e))
    | .ok nodeHash =>
      let warns := if env.localTxHash ≠ nodeHash then [RpcEvent.warnHashMismatch] else []
      if env.transferNotCheck then
        (RpcEvent.sendRawTx :: warns, .ok nodeHash)
      else
        let trace := RpcEvent.sendRawTx :: warns ++ [RpcEvent.queryReceipt nodeHash]
        match env.receiptResult nodeHash with
        | .error e => (trace, .error ("getTxReceipt fail: " ++ e))
        | .ok rp =>
          if rp.status ≠ receiptStatusSuccessful then
            (trace, .error "tx minted, but status is failed")
          else
            (trace, .ok nodeHash)

lemma padTo32_length {bs : List Nat} (h : bs.length ≤ 32) :
    (padTo32 bs).length = 32 := by
  simp [padTo32, Nat.sub_add_cancel h]

/-- For `v ≥ 35` (outside the 0/1 and 27/28 branches), truncating
division agrees with Euclidean division, and the recovery id is the
parity of `v - 35`. -/
lemma getRecoveryId_ge35 {v : Int} (h0 : ¬(v = 0 ∨ v = 1))
    (h27 : ¬(v = 27 ∨ v = 28)) (h : 35 ≤ v) :
    getRecoveryId v = (v - 35) % 2 := by
  have hnn : 0 ≤ v - 35 := by omega
  have htd : Int.tdiv (v - 35) 2 = (v - 35) / 2 := Int.tdiv_eq_ediv hnn (by decide)
  have := Int.emod_add_ediv (v - 35) 2
  simp only [getRecoveryId, h0, h27, if_false, htd]
  omega

lemma natToBEBytes_length_le : ∀ (n k : Nat), n < 256 ^ k → (natToBEBytes n).length ≤ k := by
  intro n
  induction n using Nat.strong_induction_on with
  | _ n ih =>
    intro k hk
    by_cases hn : n = 0
    · simp [natToBEBytes, hn]
    · rw [natToBEBytes, dif_neg hn]
      cases k with
      | zero =>
        exfalso
        have : n = 0 := by omega
        exact hn this
      | succ k' =>
        have hdiv : n / 256 < 256 ^ k' := by
          rw [Nat.div_lt_iff_lt_mul (by decide : 0 < 256)]
          calc n < 256 ^ (k' + 1) := hk
            _ = 256 ^ k' * 256 := by ring
        have := ih (n / 256) (Nat.div_lt_self (Nat.pos_of_ne_zero hn) (by decide)) k' hdiv
        simp only [List.length_append, List.length_cons, List.length_nil]
        omega

lemma natToBEBytes_length_ge : ∀ (n k : Nat), 256 ^ k ≤ n → k + 1 ≤ (natToBEBytes n).length := by
  intro n
  induction n using Nat.strong_induction_on with
  | _ n ih =>
    intro k hk
    have hn : n ≠ 0 := by
      intro h
      subst h
      have : 0 < 256 ^ k := Nat.pos_pow_of_pos k (by decide)
      omega
    rw [natToBEBytes, dif_neg hn]
    simp only [List.length_append, List.length_cons, List.length_nil]
    cases k with
    | zero => omega
    | succ k' =>
      have hdiv : 256 ^ k' ≤ n / 256 := by
        rw [Nat.le_div_iff_mul_le (by decide : 0 < 256)]
        calc 256 ^ k' * 256 = 256 ^ (k' + 1) := by ring
          _ ≤ n := hk
      have := ih (n / 256) (Nat.div_lt_self (Nat.pos_of_ne_zero hn) (by decide)) k' hdiv
      omega

/-- C3 counterexample: at v = 2 the code computes chainId = (2-35)/2 = -16
(Go division truncates toward zero) and recovery id 2 - 35 + 32 = -1, so
the claimed invariant "recovery id ∈ {0,1} for every integer v" is false. -/
theorem getRecoveryId_not_always_bit :
    ¬(getRecoveryId 2 = 0 ∨ getRecoveryId 2 = 1) := by decide

/-- C3 (amended): for every v in one of the three encodings the code
recognises — raw 0/1, legacy 27/28, or EIP-155 with v ≥ 35 — the
recovery id is 0 or 1. -/
theorem getRecoveryId_mem_bits (v : Int)
    (h : v = 0 ∨ v = 1 ∨ v = 27 ∨ v = 28 ∨ 35 ≤ v) :
    getRecoveryId v = 0 ∨ getRecoveryId v = 1 := by
  rcases h with h | h | h | h | h
  · subst h; left; decide
  · subst h; right; decide
  · subst h; left; decide
  · subst h; right; decide
  · have h0 : ¬(v = 0 ∨ v = 1) := by omega
    have h27 : ¬(v = 27 ∨ v = 28) := by omega
    rw [getRecoveryId_ge35 h0 h27 h]
    omega

/-- C3 amended-claim witness at v = 38 (EIP-155, chain id 1). -/
theorem getRecoveryId_mem_bits_witness :
    (getRecoveryId 38 = 0 ∨ getRecoveryId 38 = 1) ∧ getRecoveryId 38 = 1 :=
  ⟨getRecoveryId_mem_bits 38 (by norm_num), by decide⟩

/-- C4 (confirmed): getRecoveryId returns v on {0,1}, v − 27 on {27,28},
and on every other v ≥ 35 it returns v − 35 − 2·⌊(v−35)/2⌋; in
particular 0 at v = 35 + 2k and 1 at v = 36 + 2k for every k ≥ 0. -/
theorem getRecoveryId_spec (v k : Int) :
    ((v = 0 ∨ v = 1) → getRecoveryId v = v) ∧
    ((v = 27 ∨ v = 28) → getRecoveryId v = v - 27) ∧
    (¬(v = 0 ∨ v = 1) → ¬(v = 27 ∨ v = 28) → 35 ≤ v →
      getRecoveryId v = v - 35 - 2 * ((v - 35) / 2)) ∧
    (0 ≤ k → v = 35 + 2 * k → getRecoveryId v = 0) ∧
    (0 ≤ k → v = 36 + 2 * k → getRecoveryId v = 1) := by
  refine ⟨?_, ?_, ?_, ?_, ?_⟩
  · intro h
    simp [getRecoveryId, h]
  · intro h
    have h0 : ¬(v = 0 ∨ v = 1) := by rcases h with h | h <;> omega
    simp [getRecoveryId, h0, h]
  · intro h0 h27 h
    rw [getRecoveryId_ge35 h0 h27 h]
    omega
  · intro hk hv
    have h0 : ¬(v = 0 ∨ v = 1) := by omega
    have h27 : ¬(v = 27 ∨ v = 28) := by omega
    rw [getRecoveryId_ge35 h0 h27 (by omega)]
    omega
  · intro hk hv
    have h0 : ¬(v = 0 ∨ v = 1) := by omega
    have h27 : ¬(v = 27 ∨ v = 28) := by omega
    rw [getRecoveryId_ge35 h0 h27 (by omega)]
    omega

/-- C4 witness at one v per branch: 1 (raw), 28 (legacy), 37 = 35+2·1 and
38 = 36+2·1 (EIP-155, chain id 1). -/
theorem getRecoveryId_spec_witness :
    getRecoveryId 1 = 1 ∧ getRecoveryId 28 = 28 - 27 ∧
    getRecoveryId 37 = 0 ∧ getRecoveryId 38 = 1 :=
  ⟨(getRecoveryId_spec 1 0).1 (Or.inr rfl),
   (getRecoveryId_spec 28 0).2.1 (Or.inr rfl),
   (getRecoveryId_spec 37 1).2.2.2.1 (by norm_num) (by norm_num),
   (getRecoveryId_spec 38 1).2.2.2.2 (by norm_num) (by norm_num)⟩

/-- C5 (confirmed): when the big-endian encodings of r and s each fit in
32 bytes, the produced compact signature is exactly 65 bytes, with r
right-aligned (left-zero-padded) in bytes [0,32), s right-aligned in
bytes [32,64), and the recovery id derived from v as the final byte. -/
theorem buildECDSASignature_layout (v : Int) (r s : Nat)
    (hr : (natToBEBytes r).length ≤ 32) (hs : (natToBEBytes s).length ≤ 32) :
    ∃ sig, buildECDSASignature v r s = some sig ∧
      sig.length = 65 ∧
      sig.take 32 = List.replicate (32 - (natToBEBytes r).length) 0 ++ natToBEBytes r ∧
      (sig.drop 32).take 32 = List.replicate (32 - (natToBEBytes s).length) 0 ++ natToBEBytes s ∧
      sig.drop 64 = [(getRecoveryId v % 256).toNat] := by
  have hA : (padTo32 (natToBEBytes r)).length = 32 := padTo32_length hr
  have hB : (padTo32 (natToBEBytes s)).length = 32 := padTo32_length hs
  refine ⟨padTo32 (natToBEBytes r) ++ padTo32 (natToBEBytes s) ++
      [(getRecoveryId v % 256).toNat], ?_, ?_, ?_, ?_, ?_⟩
  · simp only [buildECDSASignature]
    rw [if_pos ⟨hr, hs⟩]
  · simp [hA, hB]
  · show _ = padTo32 (natToBEBytes r)
    rw [List.append_assoc]
    exact List.take_left' hA
  · show _ = padTo32 (natToBEBytes s)
    rw [List.append_assoc, List.drop_left' hA]
    exact List.take_left' hB
  · exact List.drop_left' (by rw [List.length_append, hA, hB])

/-- C5 witness at v = 27, r = 1, s = 2. -/
theorem buildECDSASignature_layout_witness :
    ∃ sig, buildECDSASignature 27 1 2 = some sig ∧
      sig.length = 65 ∧
      sig.take 32 = List.replicate (32 - (natToBEBytes 1).length) 0 ++ natToBEBytes 1 ∧
      (sig.drop 32).take 32 = List.replicate (32 - (natToBEBytes 2).length) 0 ++ natToBEBytes 2 ∧
      sig.drop 64 = [(getRecoveryId 27 % 256).toNat] :=
  buildECDSASignature_layout 27 1 2
    (natToBEBytes_length_le 1 32 (by norm_num))
    (natToBEBytes_length_le 2 32 (by norm_num))

/-- C10 (confirmed): buildECDSASignature aborts with the slice-bounds
violation (modelled as `none`) exactly when r or s needs more than 32
bytes; RecoverPubkey then aborts the same way; and under the
precondition that both encodings fit in 32 bytes the function is total
(the abort branch is unreachable). -/
theorem buildECDSASignature_bounds (v : Int) (r s : Nat) :
    (buildECDSASignature v r s = none ↔
      32 < (natToBEBytes r).length ∨ 32 < (natToBEBytes s).length) ∧
    (∀ ecrecover msg, buildECDSASignature v r s = none →
      RecoverPubkey ecrecover v r s msg = none) ∧
    ((natToBEBytes r).length ≤ 32 → (natToBEBytes s).length ≤ 32 →
      (buildECDSASignature v r s).isSome = true) := by
  refine ⟨?_, ?_, ?_⟩
  · by_cases h1 : (natToBEBytes r).length ≤ 32 <;>
      by_cases h2 : (natToBEBytes s).length ≤ 32 <;>
      simp [buildECDSASignature, h1, h2] <;> omega
  · intro ecrecover msg h
    simp [RecoverPubkey, h]
  · intro h1 h2
    simp [buildECDSASignature, h1, h2]

/-- C10 witness: r = 256^32 needs 33 bytes, so both the signature build
and public-key recovery abort. -/
theorem buildECDSASignature_bounds_witness :
    buildECDSASignature 0 (256 ^ 32) 0 = none ∧
    RecoverPubkey (fun _ sig => some sig) 0 (256 ^ 32) 0 [] = none :=
  have hlen : 32 < (natToBEBytes (256 ^ 32)).length := by
    have := natToBEBytes_length_ge (256 ^ 32) 32 (le_refl _)
    omega
  have hnone : buildECDSASignature 0 (256 ^ 32) 0 = none :=
    (buildECDSASignature_bounds 0 (256 ^ 32) 0).1.mpr (Or.inl hlen)
  ⟨hnone, (buildECDSASignature_bounds 0 (256 ^ 32) 0).2.1 (fun _ sig => some sig) [] hnone⟩

lemma feeHistoryAvgAt_eq_oldest3 (fh : FeeHistoryResult) :
    feeHistoryAvgAt fh 1 = specMidAvgOldest3 fh := by
  obtain ⟨l⟩ := fh
  rcases l with _ | ⟨a, _ | ⟨b, _ | ⟨c, t⟩⟩⟩ <;>
    simp [feeHistoryAvgAt, rewardAt, specMidAvgOldest3, List.getD] <;>
    first
      | rfl
      | (congr 1; ring)

/-- C1 counterexample: on this concrete 4-block history the code averages
the mid rewards of rows 0, 1, 2 — the three OLDEST blocks — giving
priority fee (0+3+3)/3 = 2 and max fee 12, whereas the claimed average
over the three most recent blocks (rows 1, 2, 3) would give (3+3+9)/3 = 5
and max fee 15. -/
theorem transact_default_fees_not_most_recent3 :
    computeFeesEip1559 none none ⟨[[0, 0, 0], [0, 3, 0], [0, 3, 0], [0, 9, 0]]⟩ 10 ≠
      (specMidAvgMostRecent3 ⟨[[0, 0, 0], [0, 3, 0], [0, 3, 0], [0, 9, 0]]⟩,
       10 + specMidAvgMostRecent3 ⟨[[0, 0, 0], [0, 3, 0], [0, 3, 0], [0, 9, 0]]⟩) := by
  decide

/-- C1 (amended): with neither override supplied the priority fee is the
average of the 50th-percentile rewards of the three OLDEST blocks of the
4-block fee history (the first three rows of the oldest-first reward
array; the newest row is fetched but unused), and the max fee is the
latest block's base fee plus that average. -/
theorem transact_default_fees (fh : FeeHistoryResult) (baseFee : Int) :
    computeFeesEip1559 none none fh baseFee =
      (specMidAvgOldest3 fh, baseFee + specMidAvgOldest3 fh) := by
  simp [computeFeesEip1559, estimateFeesEip1559, feeHistoryAvgAt_eq_oldest3]

lemma gweiToWei_exact {d : GoDecimal} (h : -9 ≤ d.exp) :
    (gweiToWei d : ℚ) = decToRat d * 10 ^ (9 : ℕ) := by
  unfold gweiToWei decMul oneGwei decBigInt decToRat
  simp only [add_zero]
  by_cases hexp : 0 ≤ d.exp
  · rw [if_pos hexp]
    push_cast
    rw [← zpow_natCast (10 : ℚ) d.exp.toNat, Int.toNat_of_nonneg hexp]
    ring
  · rw [if_neg hexp]
    set m := (-d.exp).toNat with hm
    have hm9 : m ≤ 9 := by omega
    have hexp' : d.exp = -(m : Int) := by omega
    have h10i : (10 : Int) ^ (9 - m) * 10 ^ m = 10 ^ 9 := by
      rw [← pow_add]
      congr 1
      omega
    have hmul : d.value * 1000000000 = (d.value * 10 ^ (9 - m)) * 10 ^ m := by
      rw [mul_assoc, h10i]
      norm_num
    have hpow : (10 : Int) ^ m ≠ 0 := by positivity
    rw [hmul, Int.mul_tdiv_cancel _ hpow]
    push_cast
    rw [hexp', zpow_neg, zpow_natCast]
    field_simp
    have h10q : (10 : ℚ) ^ (9 - m) * 10 ^ m = 10 ^ 9 := by
      rw [← pow_add]
      congr 1
      omega
    rw [mul_assoc, h10q]

/-- C7 (confirmed): with both override strings supplied the computed fee
pair does not depend on the fee history or the latest base fee (no
history fetch can influence it), it is exactly (gweiToWei of each
override), and for overrides with at most nine fractional digits (exact
gwei amounts) the wei value equals the override value times 10⁹ exactly. -/
theorem transact_override_fees (d1 d2 : GoDecimal) (fh fh' : FeeHistoryResult)
    (b b' : Int) (h1 : -9 ≤ d1.exp) (h2 : -9 ≤ d2.exp) :
    computeFeesEip1559 (some d1) (some d2) fh b =
      computeFeesEip1559 (some d1) (some d2) fh' b' ∧
    computeFeesEip1559 (some d1) (some d2) fh b = (gweiToWei d1, gweiToWei d2) ∧
    ((gweiToWei d1 : ℚ) = decToRat d1 * 10 ^ (9 : ℕ) ∧
     (gweiToWei d2 : ℚ) = decToRat d2 * 10 ^ (9 : ℕ)) :=
  ⟨rfl, rfl, gweiToWei_exact h1, gweiToWei_exact h2⟩

/-- C7 witness: overrides "1.5" gwei and "2" gwei against two unrelated
histories; 1.5 gwei is exactly 1500000000 wei. -/
theorem transact_override_fees_witness :
    computeFeesEip1559 (some ⟨15, -1⟩) (some ⟨2, 0⟩) ⟨[]⟩ 0 =
      computeFeesEip1559 (some ⟨15, -1⟩) (some ⟨2, 0⟩) ⟨[[1, 2, 3]]⟩ 5 ∧
    computeFeesEip1559 (some ⟨15, -1⟩) (some ⟨2, 0⟩) ⟨[]⟩ 0 =
      (gweiToWei ⟨15, -1⟩, gweiToWei ⟨2, 0⟩) ∧
    ((gweiToWei ⟨15, -1⟩ : ℚ) = decToRat ⟨15, -1⟩ * 10 ^ (9 : ℕ) ∧
     (gweiToWei ⟨2, 0⟩ : ℚ) = decToRat ⟨2, 0⟩ * 10 ^ (9 : ℕ)) :=
  transact_override_fees ⟨15, -1⟩ ⟨2, 0⟩ ⟨[]⟩ ⟨[[1, 2, 3]]⟩ 0 5 (by decide) (by decide)

/-- C6 (confirmed): a non-zero gas-limit override always wins; otherwise
an absent destination gives the contract-creation default 7,000,000; a
destination with empty on-chain code and empty payload gives the
plain-transfer default; non-empty code or non-empty payload gives the
contract default 900,000, where "is a contract" means the destination's
code at the latest block is non-empty. -/
theorem estimateGasLimit_heuristic (ov : Nat) (destCode : Option (List Nat))
    (data : List Nat) :
    (ov ≠ 0 → estimateGasLimit ov destCode data = ov) ∧
    (ov = 0 → destCode = none → estimateGasLimit ov destCode data = 7000000) ∧
    (∀ bytecode, ov = 0 → destCode = some bytecode → bytecode = [] → data = [] →
      estimateGasLimit ov destCode data = gasUsedByTransferEth) ∧
    (∀ bytecode, ov = 0 → destCode = some bytecode →
      (isContractAddress bytecode = true ∨ data ≠ []) →
      estimateGasLimit ov destCode data = 900000) := by
  refine ⟨?_, ?_, ?_, ?_⟩
  · intro h
    simp [estimateGasLimit, h]
  · intro h hd
    subst h; subst hd
    simp [estimateGasLimit]
  · intro bytecode h hd hbc hdata
    subst h; subst hd; subst hbc; subst hdata
    simp [estimateGasLimit, isContractAddress]
  · intro bytecode h hd hcase
    subst h; subst hd
    rcases hcase with hc | hdata
    · simp [estimateGasLimit, hc]
    · have hlen : 0 < data.length := List.length_pos.mpr hdata
      simp [estimateGasLimit, hlen]

/-- C6 witness: one input per branch of the heuristic. -/
theorem estimateGasLimit_heuristic_witness :
    estimateGasLimit 50000 (some []) [] = 50000 ∧
    estimateGasLimit 0 none [] = 7000000 ∧
    estimateGasLimit 0 (some []) [] = gasUsedByTransferEth ∧
    estimateGasLimit 0 (some [96]) [] = 900000 :=
  ⟨(estimateGasLimit_heuristic 50000 (some []) []).1 (by decide),
   (estimateGasLimit_heuristic 0 none []).2.1 rfl rfl,
   (estimateGasLimit_heuristic 0 (some []) []).2.2.1 [] rfl rfl rfl rfl,
   (estimateGasLimit_heuristic 0 (some [96]) []).2.2.2 [96] rfl rfl (Or.inl (by decide))⟩

/-- C2 (code bug): the guard at common.go:176 is
`timeout > 0 && beginTime.Add(timeout).After(time.Now())`, which is true
exactly while the deadline is still in the FUTURE, the opposite of its
own `// timeout` comment.  First conjunct: with timeout 10 and elapsed
time 0 at the first check, the first "not found" makes getTxReceipt
return the timeout error after zero waits even though the timeout has
not elapsed.  Second conjunct: with the deadline already exceeded at
every check (elapsed 100 ≥ 10) it never reports a timeout and keeps
polling until a receipt appears.  Third conjunct: the unbounded case
(timeout 0, three "not found"s then a receipt) does return the receipt
after three waits, as the claim states. -/
theorem getTxReceipt_inverted_timeout :
    getTxReceipt (fun _ => .notFound) (fun k => k) 10 5 = .timeoutError 0 ∧
    getTxReceipt (fun k => if k = 0 then .notFound else .found ⟨1⟩)
      (fun k => 100 + k) 10 5 = .gotReceipt ⟨1⟩ 1 ∧
    getTxReceipt (fun k => if k < 3 then .notFound else .found ⟨1⟩)
      (fun k => k) 0 10 = .gotReceipt ⟨1⟩ 3 := by
  refine ⟨by decide, by decide, by decide⟩

/-- C8 (confirmed): when the node echoes a hash different from the
locally computed one, Transact warns but proceeds: the receipt is polled
for the NODE hash and the node hash is returned on success. -/
theorem transact_node_hash_mismatch (env : TransactEnv) (nodeHash : Nat)
    (rp : Receipt) (hdry : env.dryRun = false) (hchk : env.transferNotCheck = false)
    (hsend : env.sendResult = .ok nodeHash)
    (hrp : env.receiptResult nodeHash = .ok rp)
    (hst : rp.status = receiptStatusSuccessful)
    (hne : env.localTxHash ≠ nodeHash) :
    transactTail env =
      ([.sendRawTx, .warnHashMismatch, .queryReceipt nodeHash], .ok nodeHash) := by
  simp [transactTail, hdry, hchk, hsend, hrp, hst, hne]

/-- C8 witness: local hash 5, node echoes 7, receipt successful. -/
theorem transact_node_hash_mismatch_witness :
    transactTail ⟨false, false, 5, .ok 7, fun _ => .ok ⟨1⟩⟩ =
      ([.sendRawTx, .warnHashMismatch, .queryReceipt 7], .ok 7) :=
  transact_node_hash_mismatch ⟨false, false, 5, .ok 7, fun _ => .ok ⟨1⟩⟩ 7 ⟨1⟩
    rfl rfl rfl rfl rfl (by decide)

/-- C9 (confirmed): in dry-run mode Transact returns the locally computed
hash of the signed transaction with an empty RPC trace: the raw-send RPC
is never invoked and no receipt polling occurs. -/
theorem transact_dry_run (env : TransactEnv) (h : env.dryRun = true) :
    transactTail env = ([], .ok env.localTxHash) := by
  simp [transactTail, h]

/-- C9 witness: a dry-run environment returns the local hash 5 and an
empty trace. -/
theorem transact_dry_run_witness :
    transactTail ⟨true, false, 5, .ok 7, fun _ => .ok ⟨1⟩⟩ = ([], .ok 5) :=
  transact_dry_run ⟨true, false, 5, .ok 7, fun _ => .ok ⟨1⟩⟩ rfl
